import Mathlib

/-!
Verification of the options market-making engine (`options_quoter.py`, `libs.py`).

Prices, greeks and timestamps are modelled as rationals; positions as signed
integers (as the venue reports them).  The Black-Scholes functions imported
from the external `black_scholes` module are abstracted as an oracle record
`BSModel`, since their formulas are not part of this repository.  The venue
(the global `exchange` object) is modelled as a read snapshot `Env`:
positions, last price books, and the current wall-clock time; order
submissions are collected into lists, and Python exceptions are modelled with
`Except String`.
-/

namespace OptionsQuoter

/-- Side of an order: Python strings "bid" / "ask". -/
inductive Side
  | bid
  | ask
  deriving DecidableEq, Repr

/-- Order type: Python strings "limit" / "ioc". -/
inductive OrderType
  | limit
  | ioc
  deriving DecidableEq, Repr

/-- An order submitted via exchange.insert_order.  Volume is rational because
the gamma hedge submits fractional volumes. -/
structure Order where
  instrument_id : String
  price : ℚ
  volume : ℚ
  side : Side
  order_type : OrderType
  deriving DecidableEq, Repr

/-- A price level of an order book (bids[0] / asks[0] accesses). -/
structure PriceLevel where
  price : ℚ
  volume : ℕ
  deriving DecidableEq, Repr

/-- A two-sided order book as returned by exchange.get_last_price_book. -/
structure OrderBook where
  bids : List PriceLevel
  asks : List PriceLevel
  deriving DecidableEq, Repr

/-- The value passed as the option_kind argument.  CALL and PUT are the two
members of the Python OptionKind enum; INVALID stands for any other Python
value handed to the function. -/
inductive OptionKind
  | CALL
  | PUT
  | INVALID
  deriving DecidableEq, Repr

/-- An option instrument: expiry (a timestamp, in seconds), strike, kind. -/
structure OptionInstrument where
  expiry : ℚ
  strike : ℚ
  option_kind : OptionKind
  deriving DecidableEq, Repr

/-- Oracle for the external black_scholes module: call_value, put_value,
call_delta, put_delta, call_vega, gamma, each a function of
(S, K, T, r, sigma). -/
structure BSModel where
  call_value : ℚ → ℚ → ℚ → ℚ → ℚ → ℚ
  put_value : ℚ → ℚ → ℚ → ℚ → ℚ → ℚ
  call_delta : ℚ → ℚ → ℚ → ℚ → ℚ → ℚ
  put_delta : ℚ → ℚ → ℚ → ℚ → ℚ → ℚ
  call_vega : ℚ → ℚ → ℚ → ℚ → ℚ → ℚ
  gamma : ℚ → ℚ → ℚ → ℚ → ℚ → ℚ

/-- A snapshot of the venue and the clock, standing for the global exchange
object and datetime.now(): positions per instrument id, last price book per
instrument id (None when the venue has none), the current time (seconds), and
the Black-Scholes oracle. -/
structure Env where
  positions : String → ℤ
  books : String → Option OrderBook
  now : ℚ
  bs : BSModel

/-- libs.calculate_time_to_date: (expiry_date - current_time) / timedelta(days=1) / 365,
with timestamps in seconds, so one day is 86400 seconds. -/
def calculate_time_to_date (expiry_date current_time : ℚ) : ℚ :=
  (expiry_date - current_time) / 86400 / 365

/-- libs.calculate_current_time_to_date: calculate_time_to_date at datetime.now(). -/
def calculate_current_time_to_date (env : Env) (expiry_date : ℚ) : ℚ :=
  calculate_time_to_date expiry_date env.now

/-- round_down_to_tick: floor(price / tick_size) * tick_size. -/
def round_down_to_tick (price tick_size : ℚ) : ℚ :=
  ⌊price / tick_size⌋ * tick_size

/-- round_up_to_tick: ceil(price / tick_size) * tick_size. -/
def round_up_to_tick (price tick_size : ℚ) : ℚ :=
  ⌈price / tick_size⌉ * tick_size

/-- get_midpoint_value: None when the book is missing or either side is
empty, and otherwise the average of the best bid and best ask prices. -/
def get_midpoint_value (env : Env) (instrument_id : String) : Option ℚ :=
  match env.books instrument_id with
  | none => none
  | some order_book =>
    match order_book.bids, order_book.asks with
    | best_bid :: _, best_ask :: _ => some ((best_bid.price + best_ask.price) / 2)
    | _, _ => none

/-- calculate_theoretical_option_value: dispatches on the option kind; for a
kind that is neither CALL nor PUT the local option_value is never assigned
and the final read of it raises UnboundLocalError. -/
def calculate_theoretical_option_value (env : Env) (expiry strike : ℚ)
    (option_kind : OptionKind) (stock_value interest_rate volatility : ℚ) :
    Except String ℚ :=
  let time_to_expiry := calculate_time_to_date expiry env.now
  match option_kind with
  | .CALL => .ok (env.bs.call_value stock_value strike time_to_expiry interest_rate volatility)
  | .PUT => .ok (env.bs.put_value stock_value strike time_to_expiry interest_rate volatility)
  | .INVALID => .error "UnboundLocalError: option_value"

/-- calculate_option_delta: dispatches on the option kind and raises for any
kind that is neither CALL nor PUT. -/
def calculate_option_delta (env : Env) (expiry_date strike : ℚ)
    (option_kind : OptionKind) (stock_value interest_rate volatility : ℚ) :
    Except String ℚ :=
  let time_to_expiry := calculate_time_to_date expiry_date env.now
  match option_kind with
  | .CALL => .ok (env.bs.call_delta stock_value strike time_to_expiry interest_rate volatility)
  | .PUT => .ok (env.bs.put_delta stock_value strike time_to_expiry interest_rate volatility)
  | .INVALID =>
    .error "Got unexpected value for option_kind argument, should be OptionKind.CALL or OptionKind.PUT."

/-- update_quotes, lines 120-151: compute tick-rounded bid/ask prices around
theoretical_price plus/minus credit, clip volumes against the position limit
using the position snapshot, and submit a limit order per side only when its
volume is strictly positive.  (The poll/pull phase at lines 110-118 touches
no quantity used below and is omitted.)  Returns the submitted orders. -/
def update_quotes (env : Env) (option_id : String)
    (theoretical_price credit : ℚ) (volume position_limit : ℤ)
    (tick_size : ℚ) : List Order :=
  let bid_price := round_down_to_tick (theoretical_price - credit) tick_size
  let ask_price := round_up_to_tick (theoretical_price + credit) tick_size
  let position := env.positions option_id
  let max_volume_to_buy := position_limit - position
  let max_volume_to_sell := position_limit + position
  let bid_volume := min volume max_volume_to_buy
  let ask_volume := min volume max_volume_to_sell
  (if bid_volume > 0 then
    [⟨option_id, bid_price, (bid_volume : ℚ), Side.bid, OrderType.limit⟩]
  else []) ++
  (if ask_volume > 0 then
    [⟨option_id, ask_price, (ask_volume : ℚ), Side.ask, OrderType.limit⟩]
  else [])

/-- Python int() truncates a float toward zero: floor for a nonnegative
argument, ceiling for a negative one. -/
def truncQ (q : ℚ) : ℤ :=
  if 0 ≤ q then ⌊q⌋ else ⌈q⌉

/-- The aggregation loop of hedge_delta_position, lines 170-181: start from
the raw stock position and add BS_delta times position for each option in
iteration order (rate 0.03, volatility 3.0 hardcoded).  Fails when
calculate_option_delta fails on some option. -/
def aggregate_delta (env : Env) (stock_id : String)
    (options : List (String × OptionInstrument)) (stock_value : ℚ) :
    Except String ℚ :=
  options.foldlM
    (fun acc p => do
      let d ← calculate_option_delta env p.2.expiry p.2.strike p.2.option_kind
        stock_value (3 / 100) 3
      pure (acc + d * (env.positions p.1 : ℚ)))
    ((env.positions stock_id : ℤ) : ℚ)

/-- The hypothetical stock-hedge size of hedge_delta_position, line 196:
number_of_stocks = -1 * position(stock) * BS_delta, where BS_delta is the
delta of the last-iterated option. -/
def number_of_stocks (env : Env) (stock_id : String) (d : ℚ) : ℚ :=
  -1 * ((env.positions stock_id : ℤ) : ℚ) * d

/-- hedge_delta_position, lines 154-228.  After the aggregation loop the code
reuses the loop variable holding the last-iterated option (UnboundLocalError
when the chain is empty), computes number_of_stocks = -1 * position(stock) *
BS_delta(last option), reads the best bid and ask of the stock book
(AttributeError when the book is missing, IndexError when a side is empty),
and then branches on the sign of the aggregate delta: for a negative
aggregate it submits an ioc bid at the best ask, for a positive one an ioc
ask at the best bid, with volume (-1) * int(n_o_s) where n_o_s is
number_of_stocks if the branch bound check passes and 0 otherwise; for a
zero aggregate it submits nothing. -/
def hedge_delta_position (env : Env) (stock_id : String)
    (options : List (String × OptionInstrument)) (stock_value : ℚ) :
    Except String (List Order) :=
  match aggregate_delta env stock_id options stock_value with
  | .error e => .error e
  | .ok total =>
    match options.getLast? with
    | none => .error "UnboundLocalError: local variable option referenced before assignment"
    | some last =>
      match calculate_option_delta env last.2.expiry last.2.strike
          last.2.option_kind stock_value (3 / 100) 3 with
      | .error e => .error e
      | .ok d =>
        let P : ℚ := ((env.positions stock_id : ℤ) : ℚ)
        let n_stocks : ℚ := number_of_stocks env stock_id d
        match env.books stock_id with
        | none => .error "AttributeError: NoneType has no attribute bids"
        | some stock_order_book =>
          match stock_order_book.bids, stock_order_book.asks with
          | [], _ => .error "IndexError: list index out of range"
          | _, [] => .error "IndexError: list index out of range"
          | best_bid :: _, best_ask :: _ =>
            if total < 0 then
              let n_o_s : ℚ :=
                if 1 ≤ |P| - n_stocks ∧ |P| - n_stocks ≤ 100 then
                  n_stocks
                else 0
              .ok [⟨stock_id, best_ask.price, ((-1 * truncQ n_o_s : ℤ) : ℚ),
                Side.bid, OrderType.ioc⟩]
            else if total > 0 then
              let n_o_s : ℚ :=
                if 1 ≤ P + n_stocks ∧ P + n_stocks ≤ 100 then
                  n_stocks
                else 0
              .ok [⟨stock_id, best_bid.price, ((-1 * truncQ n_o_s : ℤ) : ℚ),
                Side.ask, OrderType.ioc⟩]
            else
              .ok []

/-- The gamma aggregation loop of hedge_gamma_position, lines 256-266: the
stock contributes its raw position, each option contributes
gamma(theoretical_value, strike, time-to-expiry, 0.03, 3.0) * position.
The first argument of gamma is the module-level theoretical_value left over
from the quoting loop, not stock_value. -/
def aggregate_gamma (env : Env) (stock_id : String)
    (options : List (String × OptionInstrument)) (theoretical_value : ℚ) : ℚ :=
  options.foldl
    (fun acc p =>
      acc + env.bs.gamma theoretical_value p.2.strike
          (calculate_time_to_date p.2.expiry env.now) (3 / 100) 3
        * (env.positions p.1 : ℚ))
    ((env.positions stock_id : ℤ) : ℚ)

/-- The order-submitting loop of hedge_gamma_position, lines 272-283: for
every option in the chain, reread the stock book (failure modes as in the
delta hedge) and submit a limit ask on that option at the best stock ask,
with fractional volume total_gamma / gamma(that option). -/
def gamma_orders (env : Env) (stock_id : String)
    (theoretical_value total_gamma : ℚ) :
    List (String × OptionInstrument) → Except String (List Order)
  | [] => .ok []
  | (option_id, opt) :: rest =>
    let num_additional_options :=
      total_gamma / env.bs.gamma theoretical_value opt.strike
        (calculate_time_to_date opt.expiry env.now) (3 / 100) 3
    match env.books stock_id with
    | none => .error "AttributeError: NoneType has no attribute bids"
    | some stock_order_book =>
      match stock_order_book.bids, stock_order_book.asks with
      | [], _ => .error "IndexError: list index out of range"
      | _, [] => .error "IndexError: list index out of range"
      | _best_bid :: _, best_ask :: _ =>
        match gamma_orders env stock_id theoretical_value total_gamma rest with
        | .error e => .error e
        | .ok orders =>
          .ok (⟨option_id, best_ask.price, num_additional_options,
            Side.ask, OrderType.limit⟩ :: orders)

/-- hedge_gamma_position, lines 237-286: run the delta hedge, aggregate the
gamma exposure, submit one limit ask per option sized
total_gamma / gamma(option), then run the delta hedge again.  Returns the
concatenation of all submitted orders. -/
def hedge_gamma_position (env : Env) (stock_id : String)
    (options : List (String × OptionInstrument))
    (stock_value theoretical_value : ℚ) : Except String (List Order) :=
  match hedge_delta_position env stock_id options stock_value with
  | .error e => .error e
  | .ok orders1 =>
    let total_gamma := aggregate_gamma env stock_id options theoretical_value
    match gamma_orders env stock_id theoretical_value total_gamma options with
    | .error e => .error e
    | .ok orders_gamma =>
      match hedge_delta_position env stock_id options stock_value with
      | .error e => .error e
      | .ok orders2 => .ok (orders1 ++ orders_gamma ++ orders2)

/-- The vega aggregation loop of hedge_vega_position, lines 313-324: the
stock contributes its raw position, each option contributes
call_vega(theoretical_value, strike, time-to-expiry, 0.03, 3.0) * position. -/
def aggregate_vega (env : Env) (stock_id : String)
    (options : List (String × OptionInstrument)) (theoretical_value : ℚ) : ℚ :=
  options.foldl
    (fun acc p =>
      acc + env.bs.call_vega theoretical_value p.2.strike
          (calculate_time_to_date p.2.expiry env.now) (3 / 100) 3
        * (env.positions p.1 : ℚ))
    ((env.positions stock_id : ℤ) : ℚ)

/-- hedge_vega_position, lines 297-333: aggregates the vega exposure and
logs it; line 332 then evaluates calculate_option_delta on the last-iterated
option (UnboundLocalError for an empty chain) and binds the result to a
local, submitting nothing.  The result is the logged aggregate together with
the (always empty) list of submitted orders. -/
def hedge_vega_position (env : Env) (stock_id : String)
    (options : List (String × OptionInstrument))
    (stock_value theoretical_value : ℚ) : Except String (ℚ × List Order) :=
  let total := aggregate_vega env stock_id options theoretical_value
  match options.getLast? with
  | none => .error "UnboundLocalError: local variable option referenced before assignment"
  | some last =>
    match calculate_option_delta env last.2.expiry last.2.strike
        last.2.option_kind stock_value (3 / 100) 3 with
    | .error e => .error e
    | .ok _ => .ok (total, [])

/-- The three hedging stages of the design. -/
inductive Stage
  | delta
  | gamma
  | vega
  deriving DecidableEq, Repr

/-- Stage work performed by one call to hedge_delta_position. -/
def hedge_delta_stages : List Stage := [Stage.delta]

/-- Stage work performed by one call to hedge_gamma_position, in execution
order: it calls hedge_delta_position (line 253), does its own gamma
adjustment, and calls hedge_delta_position again (line 286). -/
def hedge_gamma_stages : List Stage :=
  hedge_delta_stages ++ [Stage.gamma] ++ hedge_delta_stages

/-- The hedging phase of one iteration of the main trade loop, lines
376-379: the standalone hedge_delta_position call is commented out, only
hedge_gamma_position is invoked, and hedge_vega_position is called nowhere
in the program. -/
def cycle_hedging_stages : List Stage := hedge_gamma_stages

/-- The quoting loop of the main trade loop, lines 352-374: for each option,
compute the theoretical value, then call update_quotes with credit
call_vega(theoretical_value, strike, time-to-expiry, 0.03, 3.0), volume 5,
position limit 100 and tick size 0.10.  Returns the submitted orders, and
the value the module-level theoretical_value holds after the loop (None when
the chain is empty, so that it was never assigned). -/
def quote_loop (env : Env) (stock_value : ℚ) :
    List (String × OptionInstrument) → Except String (List Order × Option ℚ)
  | [] => .ok ([], none)
  | (option_id, opt) :: rest =>
    match calculate_theoretical_option_value env opt.expiry opt.strike
        opt.option_kind stock_value (3 / 100) 3 with
    | .error e => .error e
    | .ok theoretical_value =>
      let credit := env.bs.call_vega theoretical_value opt.strike
        (calculate_time_to_date opt.expiry env.now) (3 / 100) 3
      let orders := update_quotes env option_id theoretical_value credit 5 100 (1 / 10)
      match quote_loop env stock_value rest with
      | .error e => .error e
      | .ok (orders2, tv_last) => .ok (orders ++ orders2, some (tv_last.getD theoretical_value))

/-- Result of one iteration of the main trade loop: whether the cycle was
skipped because the stock midpoint was unavailable, and the orders submitted
during the cycle. -/
structure CycleOutput where
  skipped : Bool
  orders : List Order
  deriving DecidableEq, Repr

/-- One iteration of the main trade loop, lines 340-381: read the stock
midpoint; when it is None, print, sleep and continue (the cycle is skipped
and the loop keeps running); otherwise requote every option and run
hedge_gamma_position, which reads the module-level theoretical_value left by
the quoting loop (when the chain is empty it is unbound, but
hedge_gamma_position fails on the empty chain before evaluating it, so the
placeholder 0 is never read). -/
def trade_cycle (env : Env) (stock_id : String)
    (options : List (String × OptionInstrument)) : Except String CycleOutput :=
  match get_midpoint_value env stock_id with
  | none => .ok ⟨true, []⟩
  | some stock_value =>
    match quote_loop env stock_value options with
    | .error e => .error e
    | .ok (quote_orders, tv_last) =>
      match hedge_gamma_position env stock_id options stock_value (tv_last.getD 0) with
      | .error e => .error e
      | .ok hedge_orders => .ok ⟨false, quote_orders ++ hedge_orders⟩

/-- The Black-Scholes delta the delta-hedge aggregation assigns to an
option: call_delta for a CALL, put_delta for a PUT (an INVALID kind makes
calculate_option_delta fail instead; the 0 here is never used under the
validity hypothesis). -/
def bsDeltaOf (env : Env) (stock_value : ℚ) (opt : OptionInstrument) : ℚ :=
  match opt.option_kind with
  | .CALL => env.bs.call_delta stock_value opt.strike
      (calculate_time_to_date opt.expiry env.now) (3 / 100) 3
  | .PUT => env.bs.put_delta stock_value opt.strike
      (calculate_time_to_date opt.expiry env.now) (3 / 100) 3
  | .INVALID => 0

/-- The Black-Scholes gamma the gamma hedge assigns to an option. -/
def bsGammaOf (env : Env) (theoretical_value : ℚ) (opt : OptionInstrument) : ℚ :=
  env.bs.gamma theoretical_value opt.strike
    (calculate_time_to_date opt.expiry env.now) (3 / 100) 3

/-- The Black-Scholes vega the vega stage assigns to an option. -/
def bsVegaOf (env : Env) (theoretical_value : ℚ) (opt : OptionInstrument) : ℚ :=
  env.bs.call_vega theoretical_value opt.strike
    (calculate_time_to_date opt.expiry env.now) (3 / 100) 3

/-! Concrete instances used to witness the theorems below. -/

/-- A concrete Black-Scholes oracle for witnesses: constant greeks
(call delta 1/2, put delta -9/10, vega 6/5, gamma 2), value S for a call
and K for a put. -/
def bsW : BSModel :=
  ⟨fun S _ _ _ _ => S, fun _ K _ _ _ => K,
   fun _ _ _ _ _ => 1 / 2, fun _ _ _ _ _ => -9 / 10,
   fun _ _ _ _ _ => 6 / 5, fun _ _ _ _ _ => 2⟩

/-- A put option with strike 100 expiring one year (31536000 seconds) after
time 0. -/
def optPut : OptionInstrument := ⟨31536000, 100, OptionKind.PUT⟩

/-- Venue snapshot with stock position 6, option position 0, stock book
bids [101], asks [103]. -/
def envA : Env :=
  { positions := fun i => if i = "S" then 6 else 0
    books := fun i => if i = "S" then some ⟨[⟨101, 1⟩], [⟨103, 2⟩]⟩ else none
    now := 0
    bs := bsW }

/-- Venue snapshot with stock position -4 (negative aggregate delta). -/
def envB : Env :=
  { positions := fun i => if i = "S" then -4 else 0
    books := fun i => if i = "S" then some ⟨[⟨101, 1⟩], [⟨103, 2⟩]⟩ else none
    now := 0
    bs := bsW }

/-- Venue snapshot whose stock book has an empty bid side. -/
def envC : Env :=
  { positions := fun _ => 0
    books := fun i => if i = "S" then some ⟨[], [⟨103, 2⟩]⟩ else none
    now := 0
    bs := bsW }

/-- Venue snapshot with option position 98 (spec scenario for volume
clipping at limit 100). -/
def envD : Env :=
  { positions := fun i => if i = "O" then 98 else 0
    books := fun i => if i = "S" then some ⟨[⟨101, 1⟩], [⟨103, 2⟩]⟩ else none
    now := 0
    bs := bsW }

/-- Venue snapshot with stock position 0 and option position 2: the
aggregate delta is negative while the hypothetical hedge size is 0, so the
bound check of the negative branch fails. -/
def envE : Env :=
  { positions := fun i => if i = "O" then 2 else 0
    books := fun i => if i = "S" then some ⟨[⟨101, 1⟩], [⟨103, 2⟩]⟩ else none
    now := 0
    bs := bsW }

/-! Helper lemmas. -/

lemma round_down_to_tick_le (price tick_size : ℚ) (ht : 0 < tick_size) :
    round_down_to_tick price tick_size ≤ price := by
  unfold round_down_to_tick
  calc (⌊price / tick_size⌋ : ℚ) * tick_size
      ≤ (price / tick_size) * tick_size := by
        exact mul_le_mul_of_nonneg_right (Int.floor_le _) ht.le
    _ = price := div_mul_cancel₀ _ ht.ne'

lemma lt_round_down_to_tick_add (price tick_size : ℚ) (ht : 0 < tick_size) :
    price < round_down_to_tick price tick_size + tick_size := by
  unfold round_down_to_tick
  have h := Int.lt_floor_add_one (price / tick_size)
  calc price = (price / tick_size) * tick_size := (div_mul_cancel₀ _ ht.ne').symm
    _ < ((⌊price / tick_size⌋ : ℚ) + 1) * tick_size := by
        exact mul_lt_mul_of_pos_right h ht
    _ = (⌊price / tick_size⌋ : ℚ) * tick_size + tick_size := by ring

lemma le_round_up_to_tick (price tick_size : ℚ) (ht : 0 < tick_size) :
    price ≤ round_up_to_tick price tick_size := by
  unfold round_up_to_tick
  calc price = (price / tick_size) * tick_size := (div_mul_cancel₀ _ ht.ne').symm
    _ ≤ (⌈price / tick_size⌉ : ℚ) * tick_size := by
        exact mul_le_mul_of_nonneg_right (Int.le_ceil _) ht.le

lemma round_up_to_tick_sub_lt (price tick_size : ℚ) (ht : 0 < tick_size) :
    round_up_to_tick price tick_size - tick_size < price := by
  unfold round_up_to_tick
  have h : (⌈price / tick_size⌉ : ℚ) < price / tick_size + 1 := Int.ceil_lt_add_one _
  have h2 : (⌈price / tick_size⌉ : ℚ) * tick_size < (price / tick_size + 1) * tick_size :=
    mul_lt_mul_of_pos_right h ht
  have h3 : (price / tick_size + 1) * tick_size = price + tick_size := by
    field_simp
  linarith

lemma foldl_add_map_sum {α : Type} (f : α → ℚ) (l : List α) :
    ∀ init : ℚ, l.foldl (fun acc p => acc + f p) init = init + (l.map f).sum := by
  induction l with
  | nil => intro init; simp
  | cons a t ih =>
    intro init
    simp only [List.foldl_cons, List.map_cons, List.sum_cons, ih (init + f a)]
    ring

/-- C2: for every price and positive tick size, round_down_to_tick and
round_up_to_tick are exact multiples of the tick size, with
round_down_to_tick x t ≤ x < round_down_to_tick x t + t and
round_up_to_tick x t - t < x ≤ round_up_to_tick x t; update_quotes prices
its bid at round_down_to_tick (theoretical_price - credit) and its ask at
round_up_to_tick (theoretical_price + credit), so tick rounding only moves
the bid down and the ask up, never narrowing the spread implied by the
credit. -/
theorem tick_rounding_never_narrows_spread (tick_size : ℚ) (ht : 0 < tick_size) :
    (∀ x : ℚ,
      (∃ n : ℤ, round_down_to_tick x tick_size = n * tick_size) ∧
      round_down_to_tick x tick_size ≤ x ∧
      x < round_down_to_tick x tick_size + tick_size ∧
      (∃ m : ℤ, round_up_to_tick x tick_size = m * tick_size) ∧
      round_up_to_tick x tick_size - tick_size < x ∧
      x ≤ round_up_to_tick x tick_size) ∧
    (∀ (env : Env) (option_id : String) (theoretical_price credit : ℚ)
        (volume position_limit : ℤ),
      ∀ o ∈ update_quotes env option_id theoretical_price credit volume
          position_limit tick_size,
        (o.side = Side.bid →
          o.price = round_down_to_tick (theoretical_price - credit) tick_size ∧
          o.price ≤ theoretical_price - credit) ∧
        (o.side = Side.ask →
          o.price = round_up_to_tick (theoretical_price + credit) tick_size ∧
          theoretical_price + credit ≤ o.price)) := by
  constructor
  · intro x
    exact ⟨⟨⌊x / tick_size⌋, rfl⟩, round_down_to_tick_le x tick_size ht,
      lt_round_down_to_tick_add x tick_size ht, ⟨⌈x / tick_size⌉, rfl⟩,
      round_up_to_tick_sub_lt x tick_size ht, le_round_up_to_tick x tick_size ht⟩
  · intro env option_id theoretical_price credit volume position_limit o ho
    simp only [update_quotes, List.mem_append] at ho
    rcases ho with ho | ho
    · by_cases hb : 0 < min volume (position_limit - env.positions option_id)
      · simp only [gt_iff_lt, hb, if_pos, List.mem_singleton] at ho
        subst ho
        refine ⟨fun _ => ⟨rfl, round_down_to_tick_le _ tick_size ht⟩, fun h => ?_⟩
        simp at h
      · simp only [gt_iff_lt, hb, if_neg, not_false_iff, List.not_mem_nil] at ho
    · by_cases ha : 0 < min volume (position_limit + env.positions option_id)
      · simp only [gt_iff_lt, ha, if_pos, List.mem_singleton] at ho
        subst ho
        refine ⟨fun h => ?_, fun _ => ⟨rfl, le_round_up_to_tick _ tick_size ht⟩⟩
        simp at h
      · simp only [gt_iff_lt, ha, if_neg, not_false_iff, List.not_mem_nil] at ho

/-- Witness for C2 at the spec scenario: tick size 0.10, theoretical price
52.37, credit 1.20, giving bid 51.10 and ask 53.60. -/
theorem tick_rounding_never_narrows_spread_witness :
    (0 : ℚ) < 1 / 10 ∧
    round_down_to_tick (5237 / 100 - 120 / 100) (1 / 10) = 511 / 10 ∧
    round_down_to_tick (5237 / 100 - 120 / 100) (1 / 10) ≤ 5237 / 100 - 120 / 100 ∧
    5237 / 100 + 120 / 100 ≤ round_up_to_tick (5237 / 100 + 120 / 100) (1 / 10) ∧
    round_up_to_tick (5237 / 100 + 120 / 100) (1 / 10) = 268 / 5 := by
  have h := tick_rounding_never_narrows_spread (1 / 10) (by norm_num)
  have hd : round_down_to_tick (5237 / 100 - 120 / 100) (1 / 10) = 511 / 10 := by
    unfold round_down_to_tick
    rw [show (5237 / 100 - 120 / 100 : ℚ) / (1 / 10) = 5117 / 10 by norm_num]
    rw [show ⌊(5117 / 10 : ℚ)⌋ = 511 from Int.floor_eq_iff.mpr (by norm_num)]
    norm_num
  have hu : round_up_to_tick (5237 / 100 + 120 / 100) (1 / 10) = 268 / 5 := by
    unfold round_up_to_tick
    rw [show (5237 / 100 + 120 / 100 : ℚ) / (1 / 10) = 5357 / 10 by norm_num]
    rw [show ⌈(5357 / 10 : ℚ)⌉ = 536 from Int.ceil_eq_iff.mpr (by norm_num)]
    norm_num
  exact ⟨by norm_num, hd, (h.1 (5237 / 100 - 120 / 100)).2.1,
    (h.1 (5237 / 100 + 120 / 100)).2.2.2.2.2, hu⟩

/-- C8: calculate_option_delta returns the Black-Scholes call delta for kind
CALL and the Black-Scholes put delta for kind PUT, and fails with an
invalid-argument error exactly when the kind is neither CALL nor PUT; it
never substitutes a default kind. -/
theorem calculate_option_delta_dispatch (env : Env)
    (expiry_date strike stock_value interest_rate volatility : ℚ) :
    calculate_option_delta env expiry_date strike OptionKind.CALL stock_value
        interest_rate volatility =
      .ok (env.bs.call_delta stock_value strike
        (calculate_time_to_date expiry_date env.now) interest_rate volatility) ∧
    calculate_option_delta env expiry_date strike OptionKind.PUT stock_value
        interest_rate volatility =
      .ok (env.bs.put_delta stock_value strike
        (calculate_time_to_date expiry_date env.now) interest_rate volatility) ∧
    ∀ option_kind,
      (∃ msg, calculate_option_delta env expiry_date strike option_kind
          stock_value interest_rate volatility = .error msg) ↔
        (option_kind ≠ OptionKind.CALL ∧ option_kind ≠ OptionKind.PUT) := by
  refine ⟨rfl, rfl, fun option_kind => ?_⟩
  cases option_kind <;> simp [calculate_option_delta]

/-- C9: calculate_time_to_date is the difference expiry minus reference
expressed in days (one day being 86400 seconds) divided by 365, and it is
negative exactly when the reference time is after the expiry;
calculate_current_time_to_date evaluates it at the current time. -/
theorem calculate_time_to_date_spec (expiry_date current_time : ℚ) :
    calculate_time_to_date expiry_date current_time =
      ((expiry_date - current_time) / 86400) / 365 ∧
    (calculate_time_to_date expiry_date current_time < 0 ↔
      expiry_date < current_time) ∧
    ∀ env : Env, calculate_current_time_to_date env expiry_date =
      calculate_time_to_date expiry_date env.now := by
  refine ⟨rfl, ?_, fun _ => rfl⟩
  unfold calculate_time_to_date
  rw [div_div]
  rw [div_neg_iff]
  constructor
  · rintro (⟨_, h⟩ | ⟨h, _⟩)
    · norm_num at h
    · linarith
  · intro h
    right
    constructor
    · linarith
    · norm_num

/-- C10: hedge_delta_position requires a non-empty option chain: on the
empty chain the aggregate delta is the raw stock position, yet the function
fails (the loop variable holding the last-iterated option was never bound)
before submitting any order, whatever the stock position is. -/
theorem hedge_delta_position_empty_chain (env : Env) (stock_id : String)
    (stock_value : ℚ) :
    aggregate_delta env stock_id [] stock_value =
      .ok ((env.positions stock_id : ℚ)) ∧
    hedge_delta_position env stock_id [] stock_value =
      .error "UnboundLocalError: local variable option referenced before assignment" :=
  ⟨rfl, rfl⟩

lemma update_quotes_mem (env : Env) (option_id : String)
    (theoretical_price credit : ℚ) (volume position_limit : ℤ)
    (tick_size : ℚ) (o : Order) :
    o ∈ update_quotes env option_id theoretical_price credit volume
        position_limit tick_size ↔
      (0 < min volume (position_limit - env.positions option_id) ∧
        o = ⟨option_id, round_down_to_tick (theoretical_price - credit) tick_size,
          ((min volume (position_limit - env.positions option_id) : ℤ) : ℚ),
          Side.bid, OrderType.limit⟩) ∨
      (0 < min volume (position_limit + env.positions option_id) ∧
        o = ⟨option_id, round_up_to_tick (theoretical_price + credit) tick_size,
          ((min volume (position_limit + env.positions option_id) : ℤ) : ℚ),
          Side.ask, OrderType.limit⟩) := by
  by_cases hb : 0 < min volume (position_limit - env.positions option_id) <;>
    by_cases ha : 0 < min volume (position_limit + env.positions option_id) <;>
      simp [update_quotes, hb, ha]

/-- C1: update_quotes computes bid_volume = min(volume, limit - position)
and ask_volume = min(volume, limit + position) from the position read at
decision time, submits a limit bid (resp. ask) exactly when the
corresponding volume is strictly positive, and every submitted bid volume
lies in (0, volume] with position + bid_volume ≤ limit while every
submitted ask volume lies in (0, volume] with position - ask_volume ≥
-limit. -/
theorem update_quotes_volume_clipping (env : Env) (option_id : String)
    (theoretical_price credit : ℚ) (volume position_limit : ℤ)
    (tick_size : ℚ) :
    ((∃ o ∈ update_quotes env option_id theoretical_price credit volume
        position_limit tick_size, o.side = Side.bid) ↔
      0 < min volume (position_limit - env.positions option_id)) ∧
    ((∃ o ∈ update_quotes env option_id theoretical_price credit volume
        position_limit tick_size, o.side = Side.ask) ↔
      0 < min volume (position_limit + env.positions option_id)) ∧
    ∀ o ∈ update_quotes env option_id theoretical_price credit volume
        position_limit tick_size,
      o.order_type = OrderType.limit ∧
      (o.side = Side.bid →
        o.volume = ((min volume (position_limit - env.positions option_id) : ℤ) : ℚ) ∧
        0 < min volume (position_limit - env.positions option_id) ∧
        min volume (position_limit - env.positions option_id) ≤ volume ∧
        env.positions option_id + min volume (position_limit - env.positions option_id) ≤
          position_limit) ∧
      (o.side = Side.ask →
        o.volume = ((min volume (position_limit + env.positions option_id) : ℤ) : ℚ) ∧
        0 < min volume (position_limit + env.positions option_id) ∧
        min volume (position_limit + env.positions option_id) ≤ volume ∧
        -position_limit ≤
          env.positions option_id - min volume (position_limit + env.positions option_id)) := by
  have hmem := update_quotes_mem env option_id theoretical_price credit volume
    position_limit tick_size
  refine ⟨⟨?_, ?_⟩, ⟨?_, ?_⟩, ?_⟩
  · rintro ⟨o, ho, hside⟩
    rcases (hmem o).mp ho with ⟨h, rfl⟩ | ⟨h, rfl⟩
    · exact h
    · cases hside
  · intro h
    exact ⟨_, (hmem _).mpr (Or.inl ⟨h, rfl⟩), rfl⟩
  · rintro ⟨o, ho, hside⟩
    rcases (hmem o).mp ho with ⟨h, rfl⟩ | ⟨h, rfl⟩
    · cases hside
    · exact h
  · intro h
    exact ⟨_, (hmem _).mpr (Or.inr ⟨h, rfl⟩), rfl⟩
  · intro o ho
    rcases (hmem o).mp ho with ⟨h, rfl⟩ | ⟨h, rfl⟩
    · refine ⟨rfl, fun _ => ⟨rfl, h, by omega, by omega⟩, fun hs => ?_⟩
      cases hs
    · refine ⟨rfl, fun hs => ?_, fun _ => ⟨rfl, h, by omega, by omega⟩⟩
      cases hs

/-- Witness for C1 at the spec scenario position 98, limit 100, target 5:
a bid is submitted (with volume min 5 2 = 2). -/
theorem update_quotes_volume_clipping_witness :
    0 < min (5 : ℤ) (100 - envD.positions "O") ∧
    ∃ o ∈ update_quotes envD "O" (5237 / 100) (120 / 100) 5 100 (1 / 10),
      o.side = Side.bid :=
  ⟨by decide,
    (update_quotes_volume_clipping envD "O" (5237 / 100) (120 / 100) 5 100
      (1 / 10)).1.mpr (by decide)⟩

/-- Witness for C8: on the concrete oracle bsW, the CALL dispatch returns
the call delta 1/2, and the INVALID kind produces an error. -/
theorem calculate_option_delta_dispatch_witness :
    calculate_option_delta envA 31536000 100 OptionKind.CALL 100 (3 / 100) 3 =
      .ok (1 / 2) ∧
    ∃ msg, calculate_option_delta envA 31536000 100 OptionKind.INVALID 100
      (3 / 100) 3 = .error msg := by
  have h := calculate_option_delta_dispatch envA 31536000 100 100 (3 / 100) 3
  exact ⟨by rw [h.1]; norm_num [envA, bsW], (h.2.2 OptionKind.INVALID).mpr (by simp)⟩

/-- Witness for C9: an expiry at time 0 viewed from time 31536000 gives a
negative time to expiry. -/
theorem calculate_time_to_date_spec_witness :
    calculate_time_to_date 0 31536000 < 0 :=
  (calculate_time_to_date_spec 0 31536000).2.1.mpr (by norm_num)

/-- Witness for C10: on the concrete snapshot envA (stock position 6, so a
nonzero aggregate delta) the delta hedge with an empty chain fails. -/
theorem hedge_delta_position_empty_chain_witness :
    aggregate_delta envA "S" [] 100 = .ok 6 ∧
    hedge_delta_position envA "S" [] 100 =
      .error "UnboundLocalError: local variable option referenced before assignment" := by
  have h := hedge_delta_position_empty_chain envA "S" 100
  refine ⟨?_, h.2⟩
  rw [h.1]
  norm_num [envA]

/-- C3: under the hypotheses that the venue reads succeed (non-empty chain,
delta of the last option computed, stock book present with non-empty sides),
when the aggregate delta is strictly negative and the bound check of that
branch is satisfied, hedge_delta_position submits exactly one
immediate-or-cancel BUY (side bid) on the stock at the best ask price and
nothing else; when the aggregate delta is strictly positive and the bound
check of that branch is satisfied it submits exactly one
immediate-or-cancel SELL (side ask) at the best bid price; and when the
aggregate delta is exactly zero it submits no order at all. -/
theorem hedge_delta_direction (env : Env) (stock_id : String)
    (options : List (String × OptionInstrument)) (stock_value total d : ℚ)
    (last_id : String) (last_opt : OptionInstrument) (book : OrderBook)
    (best_bid best_ask : PriceLevel) (tb ta : List PriceLevel)
    (hagg : aggregate_delta env stock_id options stock_value = .ok total)
    (hlast : options.getLast? = some (last_id, last_opt))
    (hdelta : calculate_option_delta env last_opt.expiry last_opt.strike
      last_opt.option_kind stock_value (3 / 100) 3 = .ok d)
    (hbook : env.books stock_id = some book)
    (hbids : book.bids = best_bid :: tb)
    (hasks : book.asks = best_ask :: ta) :
    (total < 0 →
      1 ≤ |((env.positions stock_id : ℤ) : ℚ)| - number_of_stocks env stock_id d →
      |((env.positions stock_id : ℤ) : ℚ)| - number_of_stocks env stock_id d ≤ 100 →
      hedge_delta_position env stock_id options stock_value =
        .ok [⟨stock_id, best_ask.price,
          ((-1 * truncQ (number_of_stocks env stock_id d) : ℤ) : ℚ),
          Side.bid, OrderType.ioc⟩]) ∧
    (0 < total →
      1 ≤ ((env.positions stock_id : ℤ) : ℚ) + number_of_stocks env stock_id d →
      ((env.positions stock_id : ℤ) : ℚ) + number_of_stocks env stock_id d ≤ 100 →
      hedge_delta_position env stock_id options stock_value =
        .ok [⟨stock_id, best_bid.price,
          ((-1 * truncQ (number_of_stocks env stock_id d) : ℤ) : ℚ),
          Side.ask, OrderType.ioc⟩]) ∧
    (total = 0 →
      hedge_delta_position env stock_id options stock_value = .ok []) := by
  simp only [hedge_delta_position, hagg, hlast, hdelta, hbook, hbids, hasks]
  refine ⟨fun hneg h1 h2 => ?_, fun hpos h1 h2 => ?_, fun hzero => ?_⟩
  · rw [if_pos hneg, if_pos ⟨h1, h2⟩]
  · rw [if_neg (by linarith), if_pos hpos, if_pos ⟨h1, h2⟩]
  · rw [if_neg (by simp [hzero]), if_neg (by simp [hzero])]

/-- Witness for C3: stock position -4 and option position 0 give aggregate
delta -4 < 0; the bound check holds (|-4| - (-3.6) = 7.6) and the hedge
submits an immediate-or-cancel BUY of the stock at the best ask 103 with
volume -int(-3.6) = 3. -/
theorem hedge_delta_direction_witness :
    hedge_delta_position envB "S" [("O", optPut)] 100 =
      .ok [⟨"S", 103, 3, Side.bid, OrderType.ioc⟩] := by
  have h := (hedge_delta_direction envB "S" [("O", optPut)] 100 (-4) (-9 / 10)
    "O" optPut ⟨[⟨101, 1⟩], [⟨103, 2⟩]⟩ ⟨101, 1⟩ ⟨103, 2⟩ [] []
    (by norm_num [aggregate_delta, calculate_option_delta, envB, bsW, optPut,
      List.foldlM, show ("O" : String) ≠ "S" by decide])
    rfl
    (by norm_num [calculate_option_delta, envB, bsW, optPut])
    (by norm_num [envB]) rfl rfl).1
    (by norm_num)
    (by norm_num [number_of_stocks, envB])
    (by norm_num [number_of_stocks, envB])
  rw [h]
  norm_num [number_of_stocks, truncQ, envB]
  rw [show ⌈(-(18 / 5) : ℚ)⌉ = -3 from Int.ceil_eq_iff.mpr (by norm_num)]
  norm_num

/-- C4, counterexample: with stock position 6, one put with
BS delta -9/10 and option position 0, the aggregate delta is 6 > 0 and the
hypothetical hedge size is H = -1 * 6 * (-9/10) = 27/5, so the bound
1 ≤ |position(stock) - H| ≤ 100 claimed as the safety clamp is violated
(|6 - 27/5| = 3/5 < 1); yet hedge_delta_position submits an order of
volume -5, not zero, because the code's positive-branch check is
1 ≤ position + H ≤ 100, which holds (6 + 27/5 = 57/5). -/
theorem hedge_delta_clamp_counterexample :
    aggregate_delta envA "S" [("O", optPut)] 100 = .ok 6 ∧
    calculate_option_delta envA optPut.expiry optPut.strike optPut.option_kind
      100 (3 / 100) 3 = .ok (-9 / 10) ∧
    number_of_stocks envA "S" (-9 / 10) = 27 / 5 ∧
    |((envA.positions "S" : ℤ) : ℚ) - number_of_stocks envA "S" (-9 / 10)| < 1 ∧
    hedge_delta_position envA "S" [("O", optPut)] 100 =
      .ok [⟨"S", 101, -5, Side.ask, OrderType.ioc⟩] ∧
    (-5 : ℚ) ≠ 0 := by
  have hstr : ("O" : String) ≠ "S" := by decide
  refine ⟨?_, ?_, ?_, ?_, ?_, by norm_num⟩
  · norm_num [aggregate_delta, calculate_option_delta, envA, bsW, optPut,
      List.foldlM, hstr]
  · norm_num [calculate_option_delta, envA, bsW, optPut]
  · norm_num [number_of_stocks, envA]
  · norm_num [number_of_stocks, envA, abs_lt]
  · norm_num [hedge_delta_position, aggregate_delta, calculate_option_delta,
      number_of_stocks, truncQ, envA, bsW, optPut, List.foldlM,
      List.getLast?, hstr]

/-- C4, amended: the hypothetical hedge size is
H = number_of_stocks = -1 * position(stock) * BS_delta(last option); the
safety bound actually checked is 1 ≤ |position(stock)| - H ≤ 100 in the
negative-aggregate branch and 1 ≤ position(stock) + H ≤ 100 in the
positive-aggregate branch; whenever the active branch's bound is violated
the submitted volume is forced to zero (the order is sent with volume 0,
not clipped to the nearest valid size), and when it holds the full size
-int(H) is sent unclipped. -/
theorem hedge_delta_clamp (env : Env) (stock_id : String)
    (options : List (String × OptionInstrument)) (stock_value total d : ℚ)
    (last_id : String) (last_opt : OptionInstrument) (book : OrderBook)
    (best_bid best_ask : PriceLevel) (tb ta : List PriceLevel)
    (hagg : aggregate_delta env stock_id options stock_value = .ok total)
    (hlast : options.getLast? = some (last_id, last_opt))
    (hdelta : calculate_option_delta env last_opt.expiry last_opt.strike
      last_opt.option_kind stock_value (3 / 100) 3 = .ok d)
    (hbook : env.books stock_id = some book)
    (hbids : book.bids = best_bid :: tb)
    (hasks : book.asks = best_ask :: ta) :
    number_of_stocks env stock_id d =
      -(((env.positions stock_id : ℤ) : ℚ) * d) ∧
    (total < 0 →
      ¬(1 ≤ |((env.positions stock_id : ℤ) : ℚ)| - number_of_stocks env stock_id d ∧
        |((env.positions stock_id : ℤ) : ℚ)| - number_of_stocks env stock_id d ≤ 100) →
      hedge_delta_position env stock_id options stock_value =
        .ok [⟨stock_id, best_ask.price, 0, Side.bid, OrderType.ioc⟩]) ∧
    (total < 0 →
      (1 ≤ |((env.positions stock_id : ℤ) : ℚ)| - number_of_stocks env stock_id d ∧
        |((env.positions stock_id : ℤ) : ℚ)| - number_of_stocks env stock_id d ≤ 100) →
      hedge_delta_position env stock_id options stock_value =
        .ok [⟨stock_id, best_ask.price,
          ((-1 * truncQ (number_of_stocks env stock_id d) : ℤ) : ℚ),
          Side.bid, OrderType.ioc⟩]) ∧
    (0 < total →
      ¬(1 ≤ ((env.positions stock_id : ℤ) : ℚ) + number_of_stocks env stock_id d ∧
        ((env.positions stock_id : ℤ) : ℚ) + number_of_stocks env stock_id d ≤ 100) →
      hedge_delta_position env stock_id options stock_value =
        .ok [⟨stock_id, best_bid.price, 0, Side.ask, OrderType.ioc⟩]) ∧
    (0 < total →
      (1 ≤ ((env.positions stock_id : ℤ) : ℚ) + number_of_stocks env stock_id d ∧
        ((env.positions stock_id : ℤ) : ℚ) + number_of_stocks env stock_id d ≤ 100) →
      hedge_delta_position env stock_id options stock_value =
        .ok [⟨stock_id, best_bid.price,
          ((-1 * truncQ (number_of_stocks env stock_id d) : ℤ) : ℚ),
          Side.ask, OrderType.ioc⟩]) := by
  simp only [hedge_delta_position, hagg, hlast, hdelta, hbook, hbids, hasks]
  refine ⟨by unfold number_of_stocks; ring, fun hneg hviol => ?_,
    fun hneg hold => ?_, fun hpos hviol => ?_, fun hpos hold => ?_⟩
  · rw [if_pos hneg, if_neg hviol]
    norm_num [truncQ]
  · rw [if_pos hneg, if_pos hold]
  · rw [if_neg (by linarith), if_pos hpos, if_neg hviol]
    norm_num [truncQ]
  · rw [if_neg (by linarith), if_pos hpos, if_pos hold]

/-- Witness for the amended C4: stock position 0 and option position 2 give
aggregate delta -9/5 < 0 and hedge size H = 0, so the bound check
1 ≤ |0| - 0 ≤ 100 fails and the order is submitted with volume 0. -/
theorem hedge_delta_clamp_witness :
    hedge_delta_position envE "S" [("O", optPut)] 100 =
      .ok [⟨"S", 103, 0, Side.bid, OrderType.ioc⟩] :=
  (hedge_delta_clamp envE "S" [("O", optPut)] 100 (-9 / 5) (-9 / 10)
    "O" optPut ⟨[⟨101, 1⟩], [⟨103, 2⟩]⟩ ⟨101, 1⟩ ⟨103, 2⟩ [] []
    (by norm_num [aggregate_delta, calculate_option_delta, envE, bsW, optPut,
      List.foldlM, show ("O" : String) ≠ "S" by decide,
      show ("S" : String) ≠ "O" by decide])
    rfl
    (by norm_num [calculate_option_delta, envE, bsW, optPut])
    (by norm_num [envE]) rfl rfl).2.1
    (by norm_num)
    (by norm_num [number_of_stocks, envE,
      show ("S" : String) ≠ "O" by decide])

lemma delta_foldlM_ok (env : Env) (stock_value : ℚ) :
    ∀ (l : List (String × OptionInstrument)),
      (∀ p ∈ l, p.2.option_kind ≠ OptionKind.INVALID) →
      ∀ init : ℚ,
        l.foldlM
          (fun acc p => do
            let d ← calculate_option_delta env p.2.expiry p.2.strike
              p.2.option_kind stock_value (3 / 100) 3
            pure (acc + d * (env.positions p.1 : ℚ)))
          init =
        .ok (init +
          (l.map (fun p => bsDeltaOf env stock_value p.2 *
            (env.positions p.1 : ℚ))).sum) := by
  intro l
  induction l with
  | nil =>
    intro _ init
    simp only [List.foldlM_nil, List.map_nil, List.sum_nil, add_zero]
    rfl
  | cons a t ih =>
    intro h init
    have ha := h a (List.mem_cons_self a t)
    have ht := fun p hp => h p (List.mem_cons_of_mem a hp)
    have hc : calculate_option_delta env a.2.expiry a.2.strike a.2.option_kind
        stock_value (3 / 100) 3 = .ok (bsDeltaOf env stock_value a.2) := by
      cases hk : a.2.option_kind with
      | INVALID => exact absurd hk ha
      | CALL => simp [calculate_option_delta, bsDeltaOf, hk]
      | PUT => simp [calculate_option_delta, bsDeltaOf, hk]
    rw [List.foldlM_cons, hc]
    simp only [List.map_cons, List.sum_cons]
    exact Eq.trans
      (ih ht (init + bsDeltaOf env stock_value a.2 * (env.positions a.1 : ℚ)))
      (by rw [add_assoc])

lemma gamma_orders_eq_map (env : Env) (stock_id : String)
    (theoretical_value total_gamma : ℚ) (book : OrderBook)
    (best_bid best_ask : PriceLevel) (tb ta : List PriceLevel)
    (hbook : env.books stock_id = some book)
    (hbids : book.bids = best_bid :: tb)
    (hasks : book.asks = best_ask :: ta) :
    ∀ l : List (String × OptionInstrument),
      gamma_orders env stock_id theoretical_value total_gamma l =
        .ok (l.map fun p =>
          ⟨p.1, best_ask.price,
            total_gamma / bsGammaOf env theoretical_value p.2,
            Side.ask, OrderType.limit⟩) := by
  intro l
  induction l with
  | nil => rfl
  | cons a t ih =>
    simp only [gamma_orders, hbook, hbids, hasks, ih, List.map_cons]
    rfl

/-- C5: hedge_gamma_position first runs the delta-hedge, then computes the
aggregate gamma exposure the same way the aggregate delta exposure is
computed (the stock contributes its raw position as baseline, each option
contributes its Black-Scholes gamma times its position; the delta
aggregation has the same shape with delta in place of gamma), then submits,
for every option in the chain, a limit SELL (side ask) at the best
underlying ask with fractional size aggregate_gamma / gamma(that option),
and finally re-runs the delta-hedge. -/
theorem hedge_gamma_structure (env : Env) (stock_id : String)
    (options : List (String × OptionInstrument))
    (stock_value theoretical_value : ℚ) (delta_orders : List Order)
    (book : OrderBook) (best_bid best_ask : PriceLevel)
    (tb ta : List PriceLevel)
    (hdelta_run : hedge_delta_position env stock_id options stock_value =
      .ok delta_orders)
    (hbook : env.books stock_id = some book)
    (hbids : book.bids = best_bid :: tb)
    (hasks : book.asks = best_ask :: ta)
    (hkinds : ∀ p ∈ options, p.2.option_kind ≠ OptionKind.INVALID) :
    aggregate_gamma env stock_id options theoretical_value =
      ((env.positions stock_id : ℤ) : ℚ) +
        (options.map (fun p => bsGammaOf env theoretical_value p.2 *
          (env.positions p.1 : ℚ))).sum ∧
    aggregate_delta env stock_id options stock_value =
      .ok (((env.positions stock_id : ℤ) : ℚ) +
        (options.map (fun p => bsDeltaOf env stock_value p.2 *
          (env.positions p.1 : ℚ))).sum) ∧
    hedge_gamma_position env stock_id options stock_value theoretical_value =
      .ok (delta_orders ++
        (options.map fun p =>
          ⟨p.1, best_ask.price,
            aggregate_gamma env stock_id options theoretical_value /
              bsGammaOf env theoretical_value p.2,
            Side.ask, OrderType.limit⟩) ++
        delta_orders) := by
  refine ⟨?_, ?_, ?_⟩
  · unfold aggregate_gamma
    exact foldl_add_map_sum
      (fun p => bsGammaOf env theoretical_value p.2 * (env.positions p.1 : ℚ))
      options _
  · unfold aggregate_delta
    exact delta_foldlM_ok env stock_value options hkinds _
  · simp only [hedge_gamma_position, hdelta_run,
      gamma_orders_eq_map env stock_id theoretical_value
        (aggregate_gamma env stock_id options theoretical_value)
        book best_bid best_ask tb ta hbook hbids hasks options]

/-- Witness for C5: on envA with one put, the gamma hedge returns the delta
hedge order, then the option SELL sized 6 / 2 = 3 at the stock best ask
103, then the delta hedge order again. -/
theorem hedge_gamma_structure_witness :
    hedge_gamma_position envA "S" [("O", optPut)] 100 50 =
      .ok [⟨"S", 101, -5, Side.ask, OrderType.ioc⟩,
        ⟨"O", 103, 3, Side.ask, OrderType.limit⟩,
        ⟨"S", 101, -5, Side.ask, OrderType.ioc⟩] := by
  have hstr : ("O" : String) ≠ "S" := by decide
  have hd : hedge_delta_position envA "S" [("O", optPut)] 100 =
      .ok [⟨"S", 101, -5, Side.ask, OrderType.ioc⟩] := by
    norm_num [hedge_delta_position, aggregate_delta, calculate_option_delta,
      number_of_stocks, truncQ, envA, bsW, optPut, List.foldlM,
      List.getLast?, hstr]
  have h := (hedge_gamma_structure envA "S" [("O", optPut)] 100 50
    [⟨"S", 101, -5, Side.ask, OrderType.ioc⟩]
    ⟨[⟨101, 1⟩], [⟨103, 2⟩]⟩ ⟨101, 1⟩ ⟨103, 2⟩ [] []
    hd (by norm_num [envA]) rfl rfl
    (by intro p hp
        rw [List.mem_singleton] at hp
        subst hp
        simp [optPut])).2.2
  rw [h]
  norm_num [aggregate_gamma, bsGammaOf, envA, bsW, optPut, hstr]

/-- C6, counterexample: the hedging phase of a control-loop cycle consists
of the stages of hedge_gamma_position alone (delta, gamma, delta); the vega
stage is never invoked, contradicting the claimed fixed order delta-hedge,
gamma-hedge, vega stage. -/
theorem vega_stage_never_invoked :
    cycle_hedging_stages = [Stage.delta, Stage.gamma, Stage.delta] ∧
    Stage.vega ∉ cycle_hedging_stages := by
  decide

/-- C6, amended: the hedging phase of every control-loop cycle invokes only
hedge_gamma_position, whose stage order is delta-hedge, gamma adjustment,
delta-hedge; the vega stage is not part of the cycle.  The vega stage
itself, as defined, aggregates call_vega(option) times position(option)
across the chain on top of the raw stock position, returns that logged
exposure, and never submits any order. -/
theorem hedging_phase_and_vega_stage :
    cycle_hedging_stages = hedge_gamma_stages ∧
    hedge_gamma_stages = [Stage.delta, Stage.gamma, Stage.delta] ∧
    (∀ (env : Env) (stock_id : String)
        (options : List (String × OptionInstrument))
        (stock_value theoretical_value total : ℚ) (orders : List Order),
      hedge_vega_position env stock_id options stock_value theoretical_value =
          .ok (total, orders) →
        orders = [] ∧
        total = aggregate_vega env stock_id options theoretical_value) ∧
    ∀ (env : Env) (stock_id : String)
        (options : List (String × OptionInstrument))
        (theoretical_value : ℚ),
      aggregate_vega env stock_id options theoretical_value =
        ((env.positions stock_id : ℤ) : ℚ) +
          (options.map (fun p => bsVegaOf env theoretical_value p.2 *
            (env.positions p.1 : ℚ))).sum := by
  refine ⟨rfl, rfl, ?_, ?_⟩
  · intro env stock_id options stock_value theoretical_value total orders h
    unfold hedge_vega_position at h
    rcases hl : options.getLast? with _ | last
    · rw [hl] at h
      cases h
    · simp only [hl] at h
      rcases hd : calculate_option_delta env last.2.expiry last.2.strike
          last.2.option_kind stock_value (3 / 100) 3 with e | d
      · rw [hd] at h
        cases h
      · rw [hd] at h
        injection h with h2
        injection h2 with h3 h4
        exact ⟨h4.symm, h3.symm⟩
  · intro env stock_id options theoretical_value
    unfold aggregate_vega
    exact foldl_add_map_sum
      (fun p => bsVegaOf env theoretical_value p.2 * (env.positions p.1 : ℚ))
      options _

/-- Witness for the amended C6: on envA the vega stage returns the
aggregate exposure 6 and an empty order list. -/
theorem hedging_phase_and_vega_stage_witness :
    hedge_vega_position envA "S" [("O", optPut)] 100 50 = .ok (6, []) ∧
    ([] : List Order) = [] ∧
    (6 : ℚ) = aggregate_vega envA "S" [("O", optPut)] 50 := by
  have hstr : ("O" : String) ≠ "S" := by decide
  have hv : hedge_vega_position envA "S" [("O", optPut)] 100 50 =
      .ok (6, []) := by
    norm_num [hedge_vega_position, aggregate_vega, calculate_option_delta,
      envA, bsW, optPut, List.getLast?, hstr]
  exact ⟨hv, ⟨rfl,
    (hedging_phase_and_vega_stage.2.2.1 envA "S" [("O", optPut)] 100 50 6 []
      hv).2⟩⟩

/-- C7: get_midpoint_value returns the average of the best bid and best ask
prices when both sides of the book are non-empty, and None when the book is
missing or either side is empty; when it returns None the control-loop
cycle is skipped whole — no order of any kind is produced and the cycle
result is a normal (non-error) skip, so the loop keeps running. -/
theorem midpoint_unavailable_skips_cycle :
    (∀ (env : Env) (instrument_id : String) (book : OrderBook)
        (best_bid best_ask : PriceLevel) (tb ta : List PriceLevel),
      env.books instrument_id = some book →
      book.bids = best_bid :: tb →
      book.asks = best_ask :: ta →
      get_midpoint_value env instrument_id =
        some ((best_bid.price + best_ask.price) / 2)) ∧
    (∀ (env : Env) (instrument_id : String),
      (env.books instrument_id = none ∨
        ∃ book, env.books instrument_id = some book ∧
          (book.bids = [] ∨ book.asks = [])) →
      get_midpoint_value env instrument_id = none) ∧
    ∀ (env : Env) (stock_id : String)
        (options : List (String × OptionInstrument)),
      get_midpoint_value env stock_id = none →
      trade_cycle env stock_id options = .ok ⟨true, []⟩ := by
  refine ⟨?_, ?_, ?_⟩
  · intro env instrument_id book best_bid best_ask tb ta hbook hbids hasks
    simp [get_midpoint_value, hbook, hbids, hasks]
  · intro env instrument_id h
    rcases h with hnone | ⟨book, hbook, hempty⟩
    · simp [get_midpoint_value, hnone]
    · rcases hempty with h1 | h1
      · simp [get_midpoint_value, hbook, h1]
      · rcases hb : book.bids with _ | ⟨x, xs⟩ <;>
          simp [get_midpoint_value, hbook, hb, h1]
  · intro env stock_id options h
    unfold trade_cycle
    rw [h]

/-- Witness for C7: envC has an empty bid side on the stock book, the
midpoint is None, and the cycle is skipped with no orders. -/
theorem midpoint_unavailable_skips_cycle_witness :
    get_midpoint_value envC "S" = none ∧
    trade_cycle envC "S" [("O", optPut)] = .ok ⟨true, []⟩ := by
  have hm : get_midpoint_value envC "S" = none := by
    simp [get_midpoint_value, envC]
  exact ⟨hm,
    midpoint_unavailable_skips_cycle.2.2 envC "S" [("O", optPut)] hm⟩

end OptionsQuoter
